import Mathlib

/-!
# etcdhcp: the ARP conflict detector (`conflict.go`)

A shallow embedding of `ConflictDetector` and its four functions
(`newConflictDetector`, `WouldConflict`, `setDeadline`, `resolveOrNil`),
followed by the properties established about them.

Conventions of the embedding
* a Go byte slice is `Option (List Byte)`: `none` is the `nil` slice, `some []`
  an empty slice that is not `nil`;
* a Go `error` is `Option GoError`: `none` is the `nil` error;
* a `time.Time` is an integer count of nanoseconds from the zero `time.Time`
  (`time.Time{}`), a `time.Duration` an integer count of nanoseconds;
* the ARP client, the clock and the glog sink are explicit state: the client
  records every call made on it, and answers `Resolve` through a response
  function that stands for the network;
* the errno table of package syscall, which gives a `syscall.Errno` its text,
  belongs to the platform: it is the parameter `errors` of every function that
  writes a log line.
-/

namespace Etcdhcp

/-! ## Go values -/

abbrev Byte := Fin 256

/-- A Go `[]byte`; `none` is the nil slice. -/
abbrev ByteSlice := Option (List Byte)

/-- The type `net.HardwareAddr` is a byte slice. -/
abbrev HardwareAddr := ByteSlice

/-- The type `net.IP` is a byte slice. -/
abbrev IP := ByteSlice

/-- The bytes of a slice: a nil slice has none. -/
def ByteSlice.bytes (s : ByteSlice) : List Byte := s.getD []

/-- Go `s != nil` for a slice. -/
def ByteSlice.notNil (s : ByteSlice) : Bool := s.isSome

/-- Go `bytes.Equal(a, b)`: same length and same bytes; a nil slice equals an
empty one. -/
def bytesEqual (a b : ByteSlice) : Bool := decide (a.bytes = b.bytes)

/-- A `time.Time`, in nanoseconds from the zero time. -/
abbrev Time := Int

/-- A `time.Duration`, in nanoseconds. -/
abbrev Duration := Int

/-- The zero `time.Time`, which `SetDeadline` reads as "no deadline". -/
def Time.zero : Time := 0

/-- Go `t.Add(d)`. -/
def Time.Add (t : Time) (d : Duration) : Time := t + d

/-- Go `t.Before(u)`. -/
def Time.Before (t u : Time) : Bool := decide (t < u)

/-! ## Errors -/

/-- The error values the detector can be handed. `errno` is a
`syscall.Errno`; `opError` a `*net.OpError` around a cause, with its `Op` and
`Net` fields and no addresses; `timeoutError` an
error of some other type whose `Timeout()` is true; `generic` any other
error, given by its text. -/
inductive GoError where
  | errno (n : Nat)
  | opError (op : String) (net : String) (err : GoError)
  | timeoutError (text : String)
  | generic (text : String)
  deriving DecidableEq, Repr

/-- The value `syscall.EAGAIN` (errno 11 on Linux). -/
def EAGAIN : GoError := GoError.errno 11

/-- Go `syscall.Errno(n).Error()`: the text the table `errors` of package
syscall holds for `n`, and `errno n` when it holds none. The table belongs to
the platform and is a parameter: `errors n` is its text for `n`, empty when
there is none. -/
def errnoText (errors : Nat → String) (n : Nat) : String :=
  if errors n = "" then "errno " ++ toString n else errors n

/-- Go `err.Error()`, over the errno table `errors`. -/
def GoError.Error (errors : Nat → String) (e : GoError) : String :=
  match e with
  | GoError.errno n => errnoText errors n
  | GoError.opError op net err =>
    op ++ (if net = "" then "" else " " ++ net) ++ ": " ++ GoError.Error errors err
  | GoError.timeoutError text => text
  | GoError.generic text => text

/-! ## Context -/

/-- A `context.Context`, of which the detector reads only the deadline. -/
structure Context where
  deadline : Option Time
  deriving DecidableEq, Repr

/-- Go `ctx.Deadline()`: the deadline and `true`, or the zero time and `false`
when the context carries none. -/
def Context.Deadline (ctx : Context) : Time × Bool :=
  match ctx.deadline with
  | some d => (d, true)
  | none => (Time.zero, false)

/-! ## The ARP client -/

/-- A call made on the ARP client. -/
inductive ResolverOp where
  | SetDeadline (t : Time)
  | Resolve (ip : IP)
  deriving DecidableEq, Repr

/-- The `*arp.Client`: the deadline in force, the calls made so far (oldest
first), and the network's answer to a resolve request issued under a given
deadline. -/
structure Client where
  deadline : Time
  calls : List ResolverOp
  respond : Time → IP → HardwareAddr × Option GoError

/-- Go `c.SetDeadline(t)`. -/
def Client.SetDeadline (c : Client) (t : Time) : Client :=
  { c with deadline := t, calls := c.calls ++ [ResolverOp.SetDeadline t] }

/-- Go `c.Resolve(ip)`: the answer and the client afterwards. -/
def Client.Resolve (c : Client) (ip : IP) : (HardwareAddr × Option GoError) × Client :=
  (c.respond c.deadline ip, { c with calls := c.calls ++ [ResolverOp.Resolve ip] })

/-! ## Text: `net.IP.String`, the `%q` verb, the glog sink -/

/-- The digit of `n` in base 16, lower case (Go `hexDigit[n]`). -/
def hexDigit (n : Nat) : Char :=
  "0123456789abcdef".data.getD (n % 16) (Char.ofNat 48)

/-- Decimal text of a byte (Go `uitoa` on a value below 256). -/
def uitoa (b : Nat) : List Char :=
  (if 100 ≤ b then [hexDigit (b / 100 % 10)] else []) ++
  (if 10 ≤ b then [hexDigit (b / 10 % 10)] else []) ++ [hexDigit (b % 10)]

/-- Go `hexString(b)`: two hexadecimal digits for each byte. -/
def hexString (b : List Byte) : List Char :=
  b.flatMap (fun x => [hexDigit (x.val / 16), hexDigit (x.val % 16)])

/-- Go `appendHex`: hexadecimal text of a 16-bit group, no leading zeros. -/
def appendHex (v : Nat) : List Char :=
  if v = 0 then [Char.ofNat 48]
  else ([3, 2, 1, 0].filter (fun j => 0 < v / 16 ^ j)).map (fun j => hexDigit (v / 16 ^ j))

/-- Go `ip.To4()`: the four bytes of an IPv4 address, also out of its
IPv4-in-IPv6 form; `none` when the slice holds no IPv4 address. -/
def To4 (b : List Byte) : Option (List Byte) :=
  if b.length = 4 then some b
  else if b.length = 16 ∧ (b.take 10).all (fun x => x.val = 0) ∧ (b.drop 10).take 2 = [255, 255] then
    some (b.drop 12)
  else none

/-- The eight 16-bit groups of a 16-byte address. -/
def groups : List Byte → List Nat
  | hi :: lo :: rest => (hi.val * 256 + lo.val) :: groups rest
  | _ => []

/-- Length of the run of zero groups at the head of the list. -/
def zeroRun : List Nat → Nat
  | 0 :: rest => zeroRun rest + 1
  | _ => 0

/-- The longest run of zero groups, as (start, end), the first one among equals;
a run found is skipped over, as the Go loop does. `fuel` bounds the scan. -/
def longestZeroRun (g : List Nat) : Nat → Nat → Option (Nat × Nat) → Option (Nat × Nat)
  | 0, _, best => best
  | fuel + 1, i, best =>
    if g.length ≤ i then best
    else
      let l := zeroRun (g.drop i)
      let bestLen := match best with
        | some (s, e) => e - s
        | none => 0
      if 0 < l ∧ bestLen < l then longestZeroRun g fuel (i + l + 1) (some (i, i + l))
      else longestZeroRun g fuel (i + 1) best

/-- The groups from index `i` on, with `::` at the elided run. -/
def printGroups (g : List Nat) (run : Option (Nat × Nat)) : Nat → Nat → List Char
  | 0, _ => []
  | fuel + 1, i =>
    if g.length ≤ i then []
    else
      match run with
      | some (s, e) =>
        if i = s then
          [Char.ofNat 58, Char.ofNat 58] ++
            (if g.length ≤ e then [] else appendHex (g.getD e 0) ++ printGroups g run fuel (e + 1))
        else
          (if 0 < i then [Char.ofNat 58] else []) ++ appendHex (g.getD i 0) ++
            printGroups g run fuel (i + 1)
      | none =>
        (if 0 < i then [Char.ofNat 58] else []) ++ appendHex (g.getD i 0) ++
          printGroups g run fuel (i + 1)

/-- The IPv6 text of a 16-byte address: a run of a single zero group is not
elided. -/
def string6 (b : List Byte) : List Char :=
  let g := groups b
  let run := match longestZeroRun g 8 0 none with
    | some (s, e) => if e - s ≤ 1 then none else some (s, e)
    | none => none
  printGroups g run 8 0

/-- Go `ip.String()`. -/
def IP.String (ip : IP) : String :=
  let b := ByteSlice.bytes ip
  if b.length = 0 then "<nil>"
  else
    match To4 b with
    | some p4 =>
      String.mk (List.intercalate [Char.ofNat 46] (p4.map (fun x => uitoa x.val)))
    | none =>
      if b.length ≠ 16 then String.mk (Char.ofNat 63 :: hexString b)
      else String.mk (string6 b)

/-- The text `strconv.Quote` writes for one rune of an ASCII string: a
backslash before the double quote and the backslash, the named escapes, a
two-digit escape for the other control characters. A rune outside ASCII is
left as it is (Go's output for the printable ones); `IP.String` yields none. -/
def quoteRune (c : Char) : List Char :=
  let bs := Char.ofNat 92
  if c.toNat = 34 ∨ c.toNat = 92 then [bs, c]
  else if c.toNat = 7 then [bs, Char.ofNat 97]
  else if c.toNat = 8 then [bs, Char.ofNat 98]
  else if c.toNat = 12 then [bs, Char.ofNat 102]
  else if c.toNat = 10 then [bs, Char.ofNat 110]
  else if c.toNat = 13 then [bs, Char.ofNat 114]
  else if c.toNat = 9 then [bs, Char.ofNat 116]
  else if c.toNat = 11 then [bs, Char.ofNat 118]
  else if c.toNat < 32 ∨ c.toNat = 127 then
    [bs, Char.ofNat 120, hexDigit (c.toNat / 16), hexDigit (c.toNat % 16)]
  else [c]

/-- Go `strconv.Quote(s)`, which is what the verb `%q` writes for a value with
a `String` method: the text between double quotes, escaped. -/
def Quote (s : String) : String :=
  String.mk ([Char.ofNat 34] ++ s.data.flatMap quoteRune ++ [Char.ofNat 34])

/-- Go `fmt.Sprintf("error resolving %q: %v", ip, err)` for an error that is
not nil: `%q` quotes `ip.String()`, `%v` writes `err.Error()`. -/
def formatResolveError (errors : Nat → String) (ip : IP) (err : GoError) : String :=
  "error resolving " ++ Quote (IP.String ip) ++ ": " ++ err.Error errors

/-- The glog severities. -/
inductive Severity where
  | info
  | warning
  | error
  | fatal
  deriving DecidableEq, Repr

/-- A line handed to glog: its severity and its message (the header glog puts
in front and the newline it puts behind are the sink's). -/
structure LogEntry where
  severity : Severity
  text : String
  deriving DecidableEq, Repr

/-- Go `glog.Warningf` with the message already formatted. -/
def Warningf (log : List LogEntry) (msg : String) : List LogEntry :=
  log ++ [{ severity := Severity.warning, text := msg }]

/-! ## The detector -/

/-- The struct `ConflictDetector`. `mu` is true while the mutex is held. -/
structure ConflictDetector where
  c : Client
  detected : List (String × HardwareAddr)
  timeout : Duration
  mu : Bool

/-- A `*net.Interface`, as far as the detector sees it. -/
structure Interface where
  index : Nat
  name : String
  deriving DecidableEq, Repr

/-- The host the detector is built on. `net.InterfaceByName` returns a Go
pair (a pointer that may be nil, an error that may be nil); `arp.Dial` returns
a client with a nil error, or an error with no client. -/
structure Host where
  InterfaceByName : String → Option Interface × Option GoError
  Dial : Option Interface → Except GoError Client

/-- Go `newConflictDetector(iface, timeout)`: the pair (detector, error). -/
def newConflictDetector (h : Host) (iface : String) (timeout : Duration) :
    Option ConflictDetector × Option GoError :=
  let r := h.InterfaceByName iface
  let i := r.1
  match r.2 with
  | some err => (none, some err)
  | none =>
    match h.Dial i with
    | Except.error err => (none, some err)
    | Except.ok c => (some { c := c, timeout := timeout, detected := [], mu := false }, none)

/-- Go `c.mu.Lock()`, from the moment it returns: the mutex is held. -/
def ConflictDetector.Lock (c : ConflictDetector) : ConflictDetector :=
  { c with mu := true }

/-- Go `c.mu.Unlock()`. -/
def ConflictDetector.Unlock (c : ConflictDetector) : ConflictDetector :=
  { c with mu := false }

/-- Go `c.setDeadline(ctx)`, with the reading of `time.Now()` as `now`. -/
def ConflictDetector.setDeadline (c : ConflictDetector) (now : Time) (ctx : Context) :
    ConflictDetector :=
  let d := ctx.Deadline.1
  let max := Time.Add now c.timeout
  let d := if Time.Before max d then max else d
  { c with c := c.c.SetDeadline d }

/-- Go `c.resolveOrNil(ip)`, over the errno table `errors`: the address
returned, the detector and the log afterwards. -/
def ConflictDetector.resolveOrNil (c : ConflictDetector) (errors : Nat → String)
    (log : List LogEntry) (ip : IP) :
    HardwareAddr × ConflictDetector × List LogEntry :=
  let r := c.c.Resolve ip
  let mac := r.1.1
  let err := r.1.2
  let c1 := { c with c := r.2 }
  match err with
  | none => (mac, c1, log)
  | some e =>
    if e = EAGAIN then (none, c1, log)
    else (none, c1, Warningf log (formatResolveError errors ip e))

/-- Go `c.WouldConflict(ctx, ip, mac)`, over the errno table `errors` and from
the moment the lock is acquired: the boolean returned, the detector and the
log afterwards. -/
def ConflictDetector.WouldConflict (c : ConflictDetector) (errors : Nat → String)
    (now : Time) (log : List LogEntry) (ctx : Context) (ip : IP) (mac : HardwareAddr) :
    Bool × ConflictDetector × List LogEntry :=
  let c1 := c.Lock
  let c2 := c1.setDeadline now ctx
  let r := c2.resolveOrNil errors log ip
  let existing := r.1
  (existing.notNil && !bytesEqual mac existing, r.2.1.Unlock, r.2.2)

/-! ## Concurrent calls

Each call of `WouldConflict` runs on its own goroutine and goes through the
statements of the function one at a time; a schedule picks the goroutine
that moves next and the clock reading it sees. -/

/-- Where a call of `WouldConflict` stands. -/
inductive Pc where
  | atLock
  | atSetDeadline
  | atResolve
  | atReturn (existing : HardwareAddr)
  | returned (result : Bool)
  deriving DecidableEq, Repr

/-- A call of `WouldConflict` under way: its arguments and where it stands. -/
structure Call where
  ctx : Context
  ip : IP
  mac : HardwareAddr
  pc : Pc
  deriving DecidableEq, Repr

/-- The call holds the lock and is using the resolver, or is about to release
the lock. -/
def Call.inFlight (k : Call) : Bool :=
  match k.pc with
  | Pc.atSetDeadline => true
  | Pc.atResolve => true
  | Pc.atReturn _ => true
  | _ => false

/-- The detector shared by the goroutines, the log, and the calls under way. -/
structure Machine where
  det : ConflictDetector
  log : List LogEntry
  calls : List Call

/-- One statement of `WouldConflict` run by the call `k`; `none` when the call
cannot move: it waits for the lock, or it has returned. -/
def Call.step (k : Call) (errors : Nat → String) (now : Time) (det : ConflictDetector) (log : List LogEntry) :
    Option (Call × ConflictDetector × List LogEntry) :=
  match k.pc with
  | Pc.atLock =>
    if det.mu then none else some ({ k with pc := Pc.atSetDeadline }, det.Lock, log)
  | Pc.atSetDeadline =>
    some ({ k with pc := Pc.atResolve }, det.setDeadline now k.ctx, log)
  | Pc.atResolve =>
    let r := det.resolveOrNil errors log k.ip
    some ({ k with pc := Pc.atReturn r.1 }, r.2.1, r.2.2)
  | Pc.atReturn existing =>
    some ({ k with pc := Pc.returned (existing.notNil && !bytesEqual k.mac existing) },
      det.Unlock, log)
  | Pc.returned _ => none

/-- The goroutine `i` is given the processor at clock reading `now`. -/
def Machine.step (s : Machine) (errors : Nat → String) (i : Nat) (now : Time) : Machine :=
  match s.calls.get? i with
  | none => s
  | some k =>
    match k.step errors now s.det s.log with
    | none => s
    | some r => { det := r.2.1, log := r.2.2, calls := s.calls.set i r.1 }

/-- The system after a schedule. -/
def Machine.run (s : Machine) (errors : Nat → String) : List (Nat × Time) → Machine
  | [] => s
  | (i, now) :: rest => (s.step errors i now).run errors rest

/-- A system in which no call has started: the mutex is free, the resolver
has not been used, every call stands at `Lock`. -/
def Machine.initial (s : Machine) : Prop :=
  s.det.mu = false ∧ s.det.c.calls = [] ∧ ∀ k ∈ s.calls, k.pc = Pc.atLock

/-- The resolver calls of whole uses: a `SetDeadline` then a `Resolve`, for
each pair (deadline, IP) of the list. -/
def wholeUses (l : List (Time × IP)) : List ResolverOp :=
  l.flatMap (fun p => [ResolverOp.SetDeadline p.1, ResolverOp.Resolve p.2])

/-! ## Concrete data for the scenarios -/

/-- The address 10.0.0.5. -/
def ip10005 : IP := some [10, 0, 0, 5]

/-- The address aa:bb:cc:dd:ee:01. -/
def macEE01 : HardwareAddr := some [0xaa, 0xbb, 0xcc, 0xdd, 0xee, 0x01]

/-- The address aa:bb:cc:dd:ee:02. -/
def macEE02 : HardwareAddr := some [0xaa, 0xbb, 0xcc, 0xdd, 0xee, 0x02]

/-- A client that has not been used, on a network that always gives the
answer `r`. -/
def stubClient (r : HardwareAddr × Option GoError) : Client :=
  { deadline := Time.zero, calls := [], respond := fun _ _ => r }

/-- A detector with a timeout of one second over `stubClient r`. -/
def stubDetector (r : HardwareAddr × Option GoError) : ConflictDetector :=
  { c := stubClient r, detected := [], timeout := 1000000000, mu := false }

/-- A context without a deadline (`context.Background()`). -/
def background : Context := { deadline := none }

/-- A clock reading: 2017-01-01 00:00:00 UTC, in nanoseconds from the zero
time. -/
def newYear2017 : Time := 63618825600000000000

/-- An excerpt of the errno table of package syscall on Linux, for the
concrete runs: the texts of the errnos a socket is likely to report; a number
left out has no text here. The theorems are stated for every table. -/
def linuxErrors (n : Nat) : String :=
  match n with
  | 1 => "operation not permitted"
  | 2 => "no such file or directory"
  | 3 => "no such process"
  | 4 => "interrupted system call"
  | 5 => "input/output error"
  | 6 => "no such device or address"
  | 7 => "argument list too long"
  | 8 => "exec format error"
  | 9 => "bad file descriptor"
  | 10 => "no child processes"
  | 11 => "resource temporarily unavailable"
  | 12 => "cannot allocate memory"
  | 13 => "permission denied"
  | 14 => "bad address"
  | 16 => "device or resource busy"
  | 17 => "file exists"
  | 19 => "no such device"
  | 22 => "invalid argument"
  | 23 => "too many open files in system"
  | 24 => "too many open files"
  | 32 => "broken pipe"
  | 88 => "socket operation on non-socket"
  | 90 => "message too long"
  | 97 => "address family not supported by protocol"
  | 98 => "address already in use"
  | 99 => "cannot assign requested address"
  | 100 => "network is down"
  | 101 => "network is unreachable"
  | 104 => "connection reset by peer"
  | 105 => "no buffer space available"
  | 110 => "connection timed out"
  | 111 => "connection refused"
  | 112 => "host is down"
  | 113 => "no route to host"
  | _ => ""

/-! ## Definitions used by the statements -/

/-- The answer the resolver gives to the `Resolve` that `WouldConflict` issues. -/
def answerTo (c : ConflictDetector) (now : Time) (ctx : Context) (ip : IP) :
    HardwareAddr × Option GoError :=
  (((c.Lock).setDeadline now ctx).c.Resolve ip).1

/-- The deadline `setDeadline` computes. -/
def effectiveDeadline (c : ConflictDetector) (now : Time) (ctx : Context) : Time :=
  if Time.Before (Time.Add now c.timeout) ctx.Deadline.1 then Time.Add now c.timeout
  else ctx.Deadline.1

/-- The characters `IP.String` writes. -/
def plainChars : List Char := "0123456789abcdef.:?<>nil".data

/-- The double quote, as a string. -/
def doubleQuote : String := String.singleton (Char.ofNat 34)

/-- A host with the interface `eth0`, on which `arp.Dial` opens `stubClient`
for that interface and fails with "operation not permitted" otherwise. -/
def stubHost : Host :=
  { InterfaceByName := fun name =>
      if name = "eth0" then (some { index := 2, name := "eth0" }, none)
      else (none, some (GoError.generic "route ip+net: no such network interface"))
    Dial := fun i =>
      match i with
      | some _ => Except.ok (stubClient (none, some EAGAIN))
      | none => Except.error (GoError.errno 1) }

/-- In the list `l`, only the call at index `i` may be in flight. -/
def OnlyAt (l : List Call) (i : Nat) : Prop :=
  ∀ (j : Nat) (x : Call), l[j]? = some x → x.inFlight = true → j = i

/-- The invariant of the machine: with the mutex free no call is in flight;
two calls in flight are the same call; the resolver has seen whole uses only,
and one more `SetDeadline` when a call stands before its `Resolve`. -/
def Machine.Inv (s : Machine) : Prop :=
  (s.det.mu = false → ∀ (j : Nat) (x : Call), s.calls[j]? = some x → x.inFlight = false) ∧
  (∀ (a b : Nat) (ka kb : Call), s.calls[a]? = some ka → s.calls[b]? = some kb →
    ka.inFlight = true → kb.inFlight = true → a = b) ∧
  ∃ l, ((∀ (j : Nat) (x : Call), s.calls[j]? = some x → x.pc ≠ Pc.atResolve) ∧ s.det.c.calls = wholeUses l) ∨
    ((∃ (j : Nat) (x : Call), s.calls[j]? = some x ∧ x.pc = Pc.atResolve) ∧
      ∃ d, s.det.c.calls = wholeUses l ++ [ResolverOp.SetDeadline d])

/-- The machine with a single call, not yet started. -/
def Machine.alone (c : ConflictDetector) (log : List LogEntry) (ctx : Context) (ip : IP)
    (mac : HardwareAddr) : Machine :=
  { det := c
    log := log
    calls := [Call.mk ctx ip mac Pc.atLock] }

/-- Two calls on one detector: 10.0.0.5 for aa:bb:cc:dd:ee:01 and for
aa:bb:cc:dd:ee:02, on a network where aa:bb:cc:dd:ee:02 answers. -/
def twoCalls : Machine :=
  { det := stubDetector (macEE02, none)
    log := []
    calls := [Call.mk background ip10005 macEE01 Pc.atLock,
      Call.mk background ip10005 macEE02 Pc.atLock] }

/-- A schedule in which the second goroutine is given the processor while the
first one holds the lock. -/
def interleaved : List (Nat × Time) :=
  [(0, newYear2017), (1, newYear2017), (0, newYear2017 + 1), (1, newYear2017 + 2),
    (0, newYear2017 + 3), (1, newYear2017 + 4)]

/-! ## Lemmas on the steps of a call -/

theorem resolveOrNil_ok (c : ConflictDetector) (errors : Nat → String)
    (log : List LogEntry) (ip : IP) (h : (c.c.Resolve ip).1.2 = none) :
    c.resolveOrNil errors log ip = ((c.c.Resolve ip).1.1, { c with c := (c.c.Resolve ip).2 }, log) := by
  simp only [ConflictDetector.resolveOrNil, h]

theorem resolveOrNil_eagain (c : ConflictDetector) (errors : Nat → String)
    (log : List LogEntry) (ip : IP) (h : (c.c.Resolve ip).1.2 = some EAGAIN) :
    c.resolveOrNil errors log ip = (none, { c with c := (c.c.Resolve ip).2 }, log) := by
  simp [ConflictDetector.resolveOrNil, h]

theorem resolveOrNil_other (c : ConflictDetector) (errors : Nat → String)
    (log : List LogEntry) (ip : IP) (e : GoError)
    (h : (c.c.Resolve ip).1.2 = some e) (he : e ≠ EAGAIN) :
    c.resolveOrNil errors log ip =
      (none, { c with c := (c.c.Resolve ip).2 }, Warningf log (formatResolveError errors ip e)) := by
  simp [ConflictDetector.resolveOrNil, h, he]

theorem resolveOrNil_detector (c : ConflictDetector) (errors : Nat → String)
    (log : List LogEntry) (ip : IP) :
    (c.resolveOrNil errors log ip).2.1 = { c with c := (c.c.Resolve ip).2 } := by
  cases h : (c.c.Resolve ip).1.2 with
  | none => rw [resolveOrNil_ok c errors log ip h]
  | some e =>
    by_cases he : e = EAGAIN
    · subst he
      rw [resolveOrNil_eagain c errors log ip h]
    · rw [resolveOrNil_other c errors log ip e h he]

theorem resolveOrNil_calls (c : ConflictDetector) (errors : Nat → String)
    (log : List LogEntry) (ip : IP) :
    (c.resolveOrNil errors log ip).2.1.c.calls = c.c.calls ++ [ResolverOp.Resolve ip] := by
  rw [resolveOrNil_detector]
  rfl

theorem resolveOrNil_mu (c : ConflictDetector) (errors : Nat → String)
    (log : List LogEntry) (ip : IP) :
    (c.resolveOrNil errors log ip).2.1.mu = c.mu := by
  rw [resolveOrNil_detector]

theorem setDeadline_calls (c : ConflictDetector) (now : Time) (ctx : Context) :
    (c.setDeadline now ctx).c.calls =
      c.c.calls ++ [ResolverOp.SetDeadline (effectiveDeadline c now ctx)] := by
  simp [ConflictDetector.setDeadline, Client.SetDeadline, effectiveDeadline]

theorem WouldConflict_result (c : ConflictDetector) (errors : Nat → String)
    (now : Time) (log : List LogEntry) (ctx : Context) (ip : IP) (mac : HardwareAddr) :
    (c.WouldConflict errors now log ctx ip mac).1 =
      ((((c.Lock).setDeadline now ctx).resolveOrNil errors log ip).1.notNil &&
        !bytesEqual mac (((c.Lock).setDeadline now ctx).resolveOrNil errors log ip).1) := rfl

theorem WouldConflict_log (c : ConflictDetector) (errors : Nat → String)
    (now : Time) (log : List LogEntry) (ctx : Context) (ip : IP) (mac : HardwareAddr) :
    (c.WouldConflict errors now log ctx ip mac).2.2 =
      (((c.Lock).setDeadline now ctx).resolveOrNil errors log ip).2.2 := rfl

/-! ## The properties -/

/-- C1: when the resolver returns a MAC `m` with no error (a slice that is not
nil, an empty one included; nil is the code's own mark for "no address"),
`WouldConflict` returns true exactly when `m` and the candidate MAC differ
under `bytes.Equal`. -/
theorem WouldConflict_answer_iff_differs (c : ConflictDetector) (errors : Nat → String)
    (now : Time) (log : List LogEntry) (ctx : Context) (ip : IP) (mac : HardwareAddr)
    (m : List Byte)
    (h : answerTo c now ctx ip = (some m, none)) :
    (c.WouldConflict errors now log ctx ip mac).1 = true ↔ bytesEqual mac (some m) = false := by
  have h2 : ((((c.Lock).setDeadline now ctx).c.Resolve ip).1).2 = none := by
    have := congrArg Prod.snd h
    simpa [answerTo] using this
  have h1 : ((((c.Lock).setDeadline now ctx).c.Resolve ip).1).1 = some m := by
    have := congrArg Prod.fst h
    simpa [answerTo] using this
  rw [WouldConflict_result, resolveOrNil_ok _ errors log ip h2]
  simp [h1, ByteSlice.notNil]

/-- C1 on the scenario: candidate 10.0.0.5 / aa:bb:cc:dd:ee:01, the resolver
answers aa:bb:cc:dd:ee:02. -/
theorem WouldConflict_answer_iff_differs_witness :
    answerTo (stubDetector (macEE02, none)) newYear2017 background ip10005
        = (some [0xaa, 0xbb, 0xcc, 0xdd, 0xee, 0x02], none) ∧
      (((stubDetector (macEE02, none)).WouldConflict linuxErrors newYear2017 [] background ip10005
          macEE01).1 = true ↔
        bytesEqual macEE01 (some [0xaa, 0xbb, 0xcc, 0xdd, 0xee, 0x02]) = false) :=
  ⟨rfl, WouldConflict_answer_iff_differs (stubDetector (macEE02, none)) linuxErrors newYear2017 []
    background ip10005 macEE01 [0xaa, 0xbb, 0xcc, 0xdd, 0xee, 0x02] rfl⟩

/-- The scenarios of C1 evaluated: the answer aa:bb:cc:dd:ee:02 gives true, the
answer aa:bb:cc:dd:ee:01 gives false. -/
theorem WouldConflict_scenarios :
    ((stubDetector (macEE02, none)).WouldConflict linuxErrors newYear2017 [] background ip10005
        macEE01).1 = true ∧
      ((stubDetector (macEE01, none)).WouldConflict linuxErrors newYear2017 [] background ip10005
        macEE01).1 = false := by
  refine ⟨by decide, by decide⟩

/-- Without a caller deadline, and with `now + timeout` not before the zero
time, `setDeadline` hands the zero time to `SetDeadline`. -/
theorem setDeadline_without_deadline (c : ConflictDetector) (now : Time) (ctx : Context)
    (h : ctx.deadline = none) (hnow : 0 ≤ now + c.timeout) :
    (c.setDeadline now ctx).c.calls = c.c.calls ++ [ResolverOp.SetDeadline Time.zero] := by
  rw [setDeadline_calls]
  have : ¬ (now + c.timeout < 0) := not_lt.mpr hnow
  simp [effectiveDeadline, Context.Deadline, h, Time.Before, Time.Add, Time.zero, this]

/-- C2 fails on the code: under `context.Background()`, on 2017-01-01 and with a
timeout of one second, the deadline handed to `SetDeadline` is the zero time
(no deadline at all), which is not `now + timeout`; so it is in the call that
`WouldConflict` makes. -/
theorem setDeadline_background_passes_zero_time :
    ((stubDetector (none, some EAGAIN)).setDeadline newYear2017 background).c.calls
        = [ResolverOp.SetDeadline Time.zero] ∧
      Time.zero ≠ Time.Add newYear2017 (stubDetector (none, some EAGAIN)).timeout ∧
      ((stubDetector (none, some EAGAIN)).WouldConflict linuxErrors newYear2017 [] background ip10005
        macEE01).2.1.c.calls = [ResolverOp.SetDeadline Time.zero, ResolverOp.Resolve ip10005] := by
  refine ⟨by decide, by decide, by decide⟩

/-- C3: when the context carries a deadline `D`, the deadline handed to
`SetDeadline` is the earlier of `D` and `now + timeout`, so it is later than
neither. -/
theorem setDeadline_with_deadline (c : ConflictDetector) (now : Time) (ctx : Context)
    (D : Time) (h : ctx.deadline = some D) :
    (c.setDeadline now ctx).c.calls =
        c.c.calls ++ [ResolverOp.SetDeadline (min D (Time.Add now c.timeout))] ∧
      min D (Time.Add now c.timeout) ≤ Time.Add now c.timeout ∧
      min D (Time.Add now c.timeout) ≤ D := by
  refine ⟨?_, min_le_right _ _, min_le_left _ _⟩
  rw [setDeadline_calls]
  simp only [effectiveDeadline, Context.Deadline, h, Time.Before, Time.Add]
  by_cases hlt : now + c.timeout < D
  · simp [hlt, min_eq_right (le_of_lt hlt)]
  · simp [hlt, min_eq_left (not_lt.mp hlt)]

/-- C3 at a caller deadline half a second away, under a timeout of one second:
the caller deadline is the one handed over. -/
theorem setDeadline_with_deadline_witness :
    ((stubDetector (none, some EAGAIN)).setDeadline newYear2017
        { deadline := some (newYear2017 + 500000000) }).c.calls =
        (stubDetector (none, some EAGAIN)).c.calls ++
          [ResolverOp.SetDeadline (min (newYear2017 + 500000000)
            (Time.Add newYear2017 (stubDetector (none, some EAGAIN)).timeout))] ∧
      min (newYear2017 + 500000000)
          (Time.Add newYear2017 (stubDetector (none, some EAGAIN)).timeout)
        ≤ Time.Add newYear2017 (stubDetector (none, some EAGAIN)).timeout ∧
      min (newYear2017 + 500000000)
          (Time.Add newYear2017 (stubDetector (none, some EAGAIN)).timeout)
        ≤ newYear2017 + 500000000 :=
  setDeadline_with_deadline (stubDetector (none, some EAGAIN)) newYear2017
    { deadline := some (newYear2017 + 500000000) } (newYear2017 + 500000000) rfl

/-- C4: when `Resolve` reports `EAGAIN`, `WouldConflict` returns false and the
log is left as it was. -/
theorem WouldConflict_no_answer (c : ConflictDetector) (errors : Nat → String)
    (now : Time) (log : List LogEntry)
    (ctx : Context) (ip : IP) (mac : HardwareAddr)
    (h : (answerTo c now ctx ip).2 = some EAGAIN) :
    (c.WouldConflict errors now log ctx ip mac).1 = false ∧
      (c.WouldConflict errors now log ctx ip mac).2.2 = log := by
  rw [WouldConflict_result, WouldConflict_log, resolveOrNil_eagain _ errors log ip h]
  simp [ByteSlice.notNil]

/-- C4 on the scenario: candidate 10.0.0.5 / aa:bb:cc:dd:ee:01, no answer. -/
theorem WouldConflict_no_answer_witness :
    (answerTo (stubDetector (none, some EAGAIN)) newYear2017 background ip10005).2
        = some EAGAIN ∧
      ((stubDetector (none, some EAGAIN)).WouldConflict linuxErrors newYear2017 [] background ip10005
          macEE01).1 = false ∧
      ((stubDetector (none, some EAGAIN)).WouldConflict linuxErrors newYear2017 [] background ip10005
          macEE01).2.2 = [] :=
  ⟨rfl, WouldConflict_no_answer (stubDetector (none, some EAGAIN)) linuxErrors newYear2017 []
    background ip10005 macEE01 rfl⟩

/-! ## The text of an IP needs no escape -/

theorem quoteRune_plain (c : Char) (h : c ∈ plainChars) : quoteRune c = [c] := by
  simp only [plainChars, List.mem_cons, List.mem_singleton, List.not_mem_nil, or_false] at h
  rcases h with h | h | h | h | h | h | h | h | h | h | h | h | h | h | h | h | h | h | h | h |
    h | h | h | h <;> subst h <;> rfl

theorem flatMap_quoteRune_plain (l : List Char) (h : ∀ c ∈ l, c ∈ plainChars) :
    l.flatMap quoteRune = l := by
  induction l with
  | nil => rfl
  | cons a t ih =>
    have ha : quoteRune a = [a] := quoteRune_plain a (h a (List.mem_cons_self a t))
    have ht : t.flatMap quoteRune = t := ih (fun c hc => h c (List.mem_cons_of_mem a hc))
    simp [List.flatMap_cons, ha, ht]

theorem hexDigit_plain (n : Nat) : hexDigit n ∈ plainChars := by
  have h : n % 16 < 16 := Nat.mod_lt n (by decide)
  unfold hexDigit
  generalize n % 16 = k at h
  interval_cases k <;> decide

theorem uitoa_plain (b : Nat) : ∀ c ∈ uitoa b, c ∈ plainChars := by
  intro c hc
  unfold uitoa at hc
  simp only [List.mem_append, List.mem_singleton] at hc
  rcases hc with (hc | hc) | hc
  · split at hc
    · rw [List.mem_singleton.mp hc]; exact hexDigit_plain _
    · cases hc
  · split at hc
    · rw [List.mem_singleton.mp hc]; exact hexDigit_plain _
    · cases hc
  · rw [hc]; exact hexDigit_plain _

theorem hexString_plain (b : List Byte) : ∀ c ∈ hexString b, c ∈ plainChars := by
  intro c hc
  unfold hexString at hc
  rw [List.mem_flatMap] at hc
  obtain ⟨x, _, hx⟩ := hc
  simp only [List.mem_cons, List.mem_singleton, List.not_mem_nil, or_false] at hx
  rcases hx with hx | hx <;> rw [hx] <;> exact hexDigit_plain _

theorem appendHex_plain (v : Nat) : ∀ c ∈ appendHex v, c ∈ plainChars := by
  intro c hc
  unfold appendHex at hc
  split at hc
  · rw [List.mem_singleton.mp hc]; decide
  · rw [List.mem_map] at hc
    obtain ⟨j, _, hj⟩ := hc
    rw [← hj]; exact hexDigit_plain _

theorem colon_plain : Char.ofNat 58 ∈ plainChars := by decide

theorem printGroups_plain (g : List Nat) (run : Option (Nat × Nat)) (fuel : Nat) :
    ∀ i, ∀ c ∈ printGroups g run fuel i, c ∈ plainChars := by
  induction fuel with
  | zero => intro i c hc; simp [printGroups] at hc
  | succ n ih =>
    intro i c hc
    unfold printGroups at hc
    split at hc
    · cases hc
    · have sep : ∀ c ∈ (if 0 < i then [Char.ofNat 58] else []), c ∈ plainChars := by
        intro c hc
        split at hc
        · rw [List.mem_singleton.mp hc]; exact colon_plain
        · cases hc
      split at hc
      · split at hc
        · simp only [List.mem_append, List.mem_cons, List.not_mem_nil, or_false] at hc
          rcases hc with (hc | hc) | hc
          · rw [hc]; exact colon_plain
          · rw [hc]; exact colon_plain
          · split at hc
            · cases hc
            · rcases List.mem_append.mp hc with hc | hc
              · exact appendHex_plain _ c hc
              · exact ih _ c hc
        · rcases List.mem_append.mp hc with hc | hc
          · rcases List.mem_append.mp hc with hc | hc
            · exact sep c hc
            · exact appendHex_plain _ c hc
          · exact ih _ c hc
      · rcases List.mem_append.mp hc with hc | hc
        · rcases List.mem_append.mp hc with hc | hc
          · exact sep c hc
          · exact appendHex_plain _ c hc
        · exact ih _ c hc

theorem string6_plain (b : List Byte) : ∀ c ∈ string6 b, c ∈ plainChars := by
  intro c hc
  exact printGroups_plain _ _ _ _ c hc

theorem intercalate_plain (sep : List Char) (hsep : ∀ c ∈ sep, c ∈ plainChars) :
    ∀ ls : List (List Char), (∀ l ∈ ls, ∀ c ∈ l, c ∈ plainChars) →
      ∀ c ∈ List.intercalate sep ls, c ∈ plainChars := by
  intro ls
  induction ls with
  | nil => intro _ c hc; simp [List.intercalate] at hc
  | cons a t ih =>
    intro h c hc
    cases t with
    | nil =>
      simp [List.intercalate] at hc
      exact h a (List.mem_cons_self a []) c hc
    | cons b r =>
      have hrec : List.intercalate sep (a :: b :: r) = a ++ sep ++ List.intercalate sep (b :: r) := by
        simp [List.intercalate, List.intersperse]
      rw [hrec] at hc
      rcases List.mem_append.mp hc with hc | hc
      · rcases List.mem_append.mp hc with hc | hc
        · exact h a (List.mem_cons_self a _) c hc
        · exact hsep c hc
      · exact ih (fun l hl => h l (List.mem_cons_of_mem a hl)) c hc

/-- Every character of `ip.String()` is one that `strconv.Quote` leaves as it
is. -/
theorem IP_String_plain (ip : IP) : ∀ c ∈ (IP.String ip).data, c ∈ plainChars := by
  intro c hc
  unfold IP.String at hc
  simp only at hc
  split at hc
  · revert c; decide
  · split at hc
    · refine intercalate_plain _ ?_ _ ?_ c hc
      · intro c hc; rw [List.mem_singleton.mp hc]; decide
      · intro l hl
        obtain ⟨x, _, hx⟩ := List.mem_map.mp hl
        rw [← hx]; exact uitoa_plain _
    · split at hc
      · rcases List.mem_cons.mp hc with hc | hc
        · rw [hc]; decide
        · exact hexString_plain _ c hc
      · exact string6_plain _ c hc

/-- The verb `%q` puts the text of an IP between double quotes and changes
nothing in it. -/
theorem Quote_IP_String (ip : IP) :
    Quote (IP.String ip) = doubleQuote ++ IP.String ip ++ doubleQuote := by
  unfold Quote
  rw [flatMap_quoteRune_plain _ (IP_String_plain ip)]
  rfl

theorem formatResolveError_eq (errors : Nat → String) (ip : IP) (e : GoError) :
    formatResolveError errors ip e =
      "error resolving " ++ doubleQuote ++ IP.String ip ++ doubleQuote ++ ": " ++ e.Error errors := by
  unfold formatResolveError
  rw [Quote_IP_String]
  simp only [String.append_assoc]

/-- C5: when `Resolve` fails with an error other than `EAGAIN`, `WouldConflict`
returns false, and the log grows by exactly one line, a warning, whose text
contains the text of the queried IP. -/
theorem WouldConflict_other_error (c : ConflictDetector) (errors : Nat → String)
    (now : Time) (log : List LogEntry) (ctx : Context) (ip : IP) (mac : HardwareAddr)
    (e : GoError)
    (h : (answerTo c now ctx ip).2 = some e) (he : e ≠ EAGAIN) :
    (c.WouldConflict errors now log ctx ip mac).1 = false ∧
      ∃ line : LogEntry, (c.WouldConflict errors now log ctx ip mac).2.2 = log ++ [line] ∧
        line.severity = Severity.warning ∧
        ∃ before after : String, line.text = before ++ IP.String ip ++ after := by
  rw [WouldConflict_result, WouldConflict_log, resolveOrNil_other _ errors log ip e h he]
  refine ⟨by simp [ByteSlice.notNil], ⟨Severity.warning, formatResolveError errors ip e⟩, rfl, rfl,
    "error resolving " ++ doubleQuote, doubleQuote ++ ": " ++ e.Error errors, ?_⟩
  rw [formatResolveError_eq]
  simp only [String.append_assoc]

/-- C5 on the scenario: candidate 10.0.0.5 / aa:bb:cc:dd:ee:01, the resolver
fails with a socket error. -/
theorem WouldConflict_other_error_witness :
    (answerTo (stubDetector (none, some (GoError.errno 9))) newYear2017 background
        ip10005).2 = some (GoError.errno 9) ∧
      GoError.errno 9 ≠ EAGAIN ∧
      ((stubDetector (none, some (GoError.errno 9))).WouldConflict linuxErrors newYear2017 [] background
          ip10005 macEE01).1 = false ∧
      ∃ line : LogEntry,
        ((stubDetector (none, some (GoError.errno 9))).WouldConflict linuxErrors newYear2017 [] background
          ip10005 macEE01).2.2 = [] ++ [line] ∧
        line.severity = Severity.warning ∧
        ∃ before after : String, line.text = before ++ IP.String ip10005 ++ after :=
  ⟨rfl, by decide, WouldConflict_other_error (stubDetector (none, some (GoError.errno 9)))
    linuxErrors newYear2017 [] background ip10005 macEE01 (GoError.errno 9) rfl (by decide)⟩

/-- C8, as amended: for an error other than `EAGAIN`, the line `resolveOrNil`
emits is a warning that reads `error resolving "<ip>": <error>`, the text of
the IP standing between double quotes and `<error>` being `err.Error()`,
whatever the platform's errno table holds. -/
theorem resolveOrNil_warning_text (c : ConflictDetector) (errors : Nat → String)
    (log : List LogEntry) (ip : IP) (e : GoError)
    (h : (c.c.Resolve ip).1.2 = some e) (he : e ≠ EAGAIN) :
    (c.resolveOrNil errors log ip).2.2 =
      log ++ [{ severity := Severity.warning,
                text := "error resolving " ++ doubleQuote ++ IP.String ip ++ doubleQuote ++
                  ": " ++ e.Error errors }] := by
  rw [resolveOrNil_other c errors log ip e h he, ← formatResolveError_eq]
  rfl

/-- C8 for 10.0.0.5 and the error "bad file descriptor". -/
theorem resolveOrNil_warning_text_witness :
    ((stubDetector (none, some (GoError.errno 9))).c.Resolve ip10005).1.2
        = some (GoError.errno 9) ∧
      GoError.errno 9 ≠ EAGAIN ∧
      ((stubDetector (none, some (GoError.errno 9))).resolveOrNil linuxErrors [] ip10005).2.2 =
        [] ++ [{ severity := Severity.warning,
                 text := "error resolving " ++ doubleQuote ++ IP.String ip10005 ++ doubleQuote ++
                   ": " ++ (GoError.errno 9).Error linuxErrors }] :=
  ⟨rfl, by decide, resolveOrNil_warning_text (stubDetector (none, some (GoError.errno 9))) linuxErrors []
    ip10005 (GoError.errno 9) rfl (by decide)⟩

/-- C8 as stated fails: for 10.0.0.5 and the error "bad file descriptor" the
line is not `error resolving 10.0.0.5: bad file descriptor`; the IP stands
between double quotes. -/
theorem warning_line_unquoted_counterexample :
    IP.String ip10005 = "10.0.0.5" ∧ (GoError.errno 9).Error linuxErrors = "bad file descriptor" ∧
      ((stubDetector (none, some (GoError.errno 9))).resolveOrNil linuxErrors [] ip10005).2.2 ≠
        [{ severity := Severity.warning,
           text := "error resolving " ++ IP.String ip10005 ++ ": " ++ (GoError.errno 9).Error linuxErrors }] ∧
      ((stubDetector (none, some (GoError.errno 9))).resolveOrNil linuxErrors [] ip10005).2.2 =
        [{ severity := Severity.warning,
           text := "error resolving " ++ doubleQuote ++ "10.0.0.5" ++ doubleQuote ++
             ": bad file descriptor" }] := by
  refine ⟨by decide, by decide, by decide, by decide⟩

/-- The line for 10.0.0.5 at ENOENT, ETIMEDOUT and EHOSTUNREACH under
`linuxErrors`, and at a number the table has no text for. -/
theorem warning_line_examples :
    formatResolveError linuxErrors ip10005 (GoError.errno 2) =
        "error resolving " ++ doubleQuote ++ "10.0.0.5" ++ doubleQuote ++
          ": no such file or directory" ∧
      formatResolveError linuxErrors ip10005 (GoError.errno 110) =
        "error resolving " ++ doubleQuote ++ "10.0.0.5" ++ doubleQuote ++
          ": connection timed out" ∧
      formatResolveError linuxErrors ip10005 (GoError.errno 113) =
        "error resolving " ++ doubleQuote ++ "10.0.0.5" ++ doubleQuote ++ ": no route to host" ∧
      formatResolveError linuxErrors ip10005 (GoError.errno 200) =
        "error resolving " ++ doubleQuote ++ "10.0.0.5" ++ doubleQuote ++ ": errno 200" := by
  refine ⟨by decide, by decide, by decide, by decide⟩

/-- C7: `newConflictDetector` returns the lookup error and no detector when
the lookup fails; the error of `arp.Dial` and no detector when the lookup
succeeds and the open fails; otherwise no error and a detector over the opened
client, with the given timeout and an empty `detected` map. -/
theorem newConflictDetector_outcomes (h : Host) (iface : String) (timeout : Duration) :
    (∀ e, (h.InterfaceByName iface).2 = some e →
        newConflictDetector h iface timeout = (none, some e)) ∧
      (∀ e, (h.InterfaceByName iface).2 = none →
        h.Dial (h.InterfaceByName iface).1 = Except.error e →
        newConflictDetector h iface timeout = (none, some e)) ∧
      (∀ cl, (h.InterfaceByName iface).2 = none →
        h.Dial (h.InterfaceByName iface).1 = Except.ok cl →
        ∃ d, newConflictDetector h iface timeout = (some d, none) ∧
          d.timeout = timeout ∧ d.detected = [] ∧ d.c = cl ∧ d.mu = false) := by
  refine ⟨?_, ?_, ?_⟩
  · intro e he
    simp [newConflictDetector, he]
  · intro e he hd
    simp [newConflictDetector, he, hd]
  · intro cl he hd
    refine ⟨{ c := cl, timeout := timeout, detected := [], mu := false }, ?_, rfl, rfl, rfl, rfl⟩
    simp [newConflictDetector, he, hd]

/-- C7 on `stubHost`: an unknown interface gives the lookup error, `eth0` a
detector with the timeout asked for. -/
theorem newConflictDetector_outcomes_witness :
    newConflictDetector stubHost "wlan9" 5
        = (none, some (GoError.generic "route ip+net: no such network interface")) ∧
      ∃ d, newConflictDetector stubHost "eth0" 5 = (some d, none) ∧
        d.timeout = 5 ∧ d.detected = [] ∧ d.c = stubClient (none, some EAGAIN) ∧
        d.mu = false :=
  ⟨(newConflictDetector_outcomes stubHost "wlan9" 5).1 _ rfl,
    (newConflictDetector_outcomes stubHost "eth0" 5).2.2 (stubClient (none, some EAGAIN)) rfl rfl⟩

/-- C9: whatever the resolver answers, a call of `WouldConflict` makes exactly
two calls on it, `SetDeadline` with the deadline computed and then `Resolve`
of the candidate IP, and the resolve request is answered under that
deadline. -/
theorem WouldConflict_resolver_calls (c : ConflictDetector) (errors : Nat → String)
    (now : Time) (log : List LogEntry) (ctx : Context) (ip : IP) (mac : HardwareAddr) :
    (c.WouldConflict errors now log ctx ip mac).2.1.c.calls =
        c.c.calls ++ [ResolverOp.SetDeadline (effectiveDeadline c now ctx),
          ResolverOp.Resolve ip] ∧
      answerTo c now ctx ip = c.c.respond (effectiveDeadline c now ctx) ip := by
  constructor
  · show (((c.Lock).setDeadline now ctx).resolveOrNil errors log ip).2.1.Unlock.c.calls = _
    have h1 : ∀ d : ConflictDetector, d.Unlock.c.calls = d.c.calls := fun _ => rfl
    rw [h1, resolveOrNil_calls, setDeadline_calls]
    simp [ConflictDetector.Lock, effectiveDeadline]
  · simp [answerTo, ConflictDetector.setDeadline, ConflictDetector.Lock, Client.SetDeadline,
      Client.Resolve, effectiveDeadline]

/-- C10: for an error returned by `Resolve`, `resolveOrNil` returns nil; it
leaves the log as it was only when the error is the value `EAGAIN` itself, and
adds one warning for every other error, among them a `*net.OpError` around
`EAGAIN` and a timeout error of another type. -/
theorem resolveOrNil_silent_only_on_bare_EAGAIN (c : ConflictDetector) (errors : Nat → String)
    (log : List LogEntry)
    (ip : IP) (e : GoError) (h : (c.c.Resolve ip).1.2 = some e) :
    (c.resolveOrNil errors log ip).1 = none ∧
      ((c.resolveOrNil errors log ip).2.2 = log ↔ e = EAGAIN) ∧
      (e ≠ EAGAIN →
        (c.resolveOrNil errors log ip).2.2 =
          log ++ [{ severity := Severity.warning, text := formatResolveError errors ip e }]) ∧
      (∀ op net, GoError.opError op net EAGAIN ≠ EAGAIN) ∧
      (∀ text, GoError.timeoutError text ≠ EAGAIN) := by
  refine ⟨?_, ?_, ?_, ?_, ?_⟩
  · by_cases he : e = EAGAIN
    · subst he; rw [resolveOrNil_eagain c errors log ip h]
    · rw [resolveOrNil_other c errors log ip e h he]
  · constructor
    · intro hlog
      by_contra he
      rw [resolveOrNil_other c errors log ip e h he] at hlog
      simp [Warningf] at hlog
    · intro he
      subst he
      rw [resolveOrNil_eagain c errors log ip h]
  · intro he
    rw [resolveOrNil_other c errors log ip e h he]
    rfl
  · intro op net hne
    simp [EAGAIN] at hne
  · intro text hne
    simp [EAGAIN] at hne

/-- C10 for a `*net.OpError` around `EAGAIN`: one warning is added. -/
theorem resolveOrNil_silent_only_on_bare_EAGAIN_witness :
    ((stubDetector (none, some (GoError.opError "read" "arp" EAGAIN))).c.Resolve
        ip10005).1.2 = some (GoError.opError "read" "arp" EAGAIN) ∧
      ((stubDetector (none, some (GoError.opError "read" "arp" EAGAIN))).resolveOrNil linuxErrors []
        ip10005).2.2 =
        [] ++ [{ severity := Severity.warning,
                 text := formatResolveError linuxErrors ip10005 (GoError.opError "read" "arp" EAGAIN) }] :=
  ⟨rfl, (resolveOrNil_silent_only_on_bare_EAGAIN
    (stubDetector (none, some (GoError.opError "read" "arp" EAGAIN))) linuxErrors [] ip10005
    (GoError.opError "read" "arp" EAGAIN) rfl).2.2.1 (by decide)⟩

/-! ## Concurrent calls: the lock serialises the uses of the resolver -/

theorem getElem?_set_cases (l : List Call) (i j : Nat) (k a x : Call) (hi : l[i]? = some k)
    (h : (l.set i a)[j]? = some x) : (j = i ∧ x = a) ∨ (j ≠ i ∧ l[j]? = some x) := by
  by_cases hji : i = j
  · subst hji
    have hlt : i < l.length := by
      by_contra hge
      rw [List.getElem?_eq_none (not_lt.mp hge)] at hi
      cases hi
    rw [List.getElem?_set_self hlt] at h
    exact Or.inl ⟨rfl, (Option.some.inj h).symm⟩
  · rw [List.getElem?_set_ne hji] at h
    exact Or.inr ⟨fun e => hji e.symm, h⟩

theorem getElem?_set_at (l : List Call) (i : Nat) (k a : Call) (hi : l[i]? = some k) :
    (l.set i a)[i]? = some a := by
  have hlt : i < l.length := by
    by_contra hge
    rw [List.getElem?_eq_none (not_lt.mp hge)] at hi
    cases hi
  exact List.getElem?_set_self hlt

theorem onlyAt_of_inFlight (l : List Call) (i : Nat) (k a : Call) (hi : l[i]? = some k)
    (hk : k.inFlight = true)
    (hu : ∀ (a b : Nat) (ka kb : Call), l[a]? = some ka → l[b]? = some kb →
      ka.inFlight = true → kb.inFlight = true → a = b) :
    OnlyAt (l.set i a) i := by
  intro j x hj hx
  rcases getElem?_set_cases l i j k a x hi hj with ⟨h, _⟩ | ⟨_, h⟩
  · exact h
  · exact hu j i x k h hi hx hk

theorem onlyAt_of_none (l : List Call) (i : Nat) (k a : Call) (hi : l[i]? = some k)
    (hn : ∀ (j : Nat) (x : Call), l[j]? = some x → x.inFlight = false) :
    OnlyAt (l.set i a) i := by
  intro j x hj hx
  rcases getElem?_set_cases l i j k a x hi hj with ⟨h, _⟩ | ⟨_, h⟩
  · exact h
  · rw [hn j x h] at hx
    cases hx

theorem OnlyAt.unique {l : List Call} {i : Nat} (h : OnlyAt l i) :
    ∀ (a b : Nat) (ka kb : Call), l[a]? = some ka → l[b]? = some kb →
      ka.inFlight = true → kb.inFlight = true → a = b := by
  intro a b ka kb ha hb hka hkb
  rw [h a ka ha hka, h b kb hb hkb]

theorem OnlyAt.noneAtResolve {l : List Call} {i : Nat} {a : Call} (h : OnlyAt l i)
    (hi : l[i]? = some a) (ha : a.pc ≠ Pc.atResolve) :
    ∀ (j : Nat) (x : Call), l[j]? = some x → x.pc ≠ Pc.atResolve := by
  intro j x hj hx
  have hfl : x.inFlight = true := by simp [Call.inFlight, hx]
  have hji := h j x hj hfl
  subst hji
  rw [hi] at hj
  cases hj
  exact ha hx

theorem OnlyAt.noneInFlight {l : List Call} {i : Nat} {a : Call} (h : OnlyAt l i)
    (hi : l[i]? = some a) (ha : a.inFlight = false) :
    ∀ (j : Nat) (x : Call), l[j]? = some x → x.inFlight = false := by
  intro j x hj
  by_contra hx
  have hfl : x.inFlight = true := by simpa using hx
  have hji := h j x hj hfl
  subst hji
  rw [hi] at hj
  cases hj
  rw [ha] at hfl
  cases hfl

theorem wholeUses_snoc (l : List (Time × IP)) (d : Time) (ip : IP) :
    wholeUses l ++ [ResolverOp.SetDeadline d] ++ [ResolverOp.Resolve ip] =
      wholeUses (l ++ [(d, ip)]) := by
  simp [wholeUses, List.flatMap_append]

theorem setDeadline_mu (c : ConflictDetector) (now : Time) (ctx : Context) :
    (c.setDeadline now ctx).mu = c.mu := rfl

/-- With exactly the call `k` at index `i` in flight and not before its
`Resolve`, the resolver has seen whole uses only. -/
theorem Machine.Inv.whole_of_not_atResolve {s : Machine} (h : s.Inv) {i : Nat} {k : Call}
    (hi : s.calls[i]? = some k) (hk : k.inFlight = true) (hpc : k.pc ≠ Pc.atResolve) :
    ∃ l, s.det.c.calls = wholeUses l := by
  obtain ⟨_, hu, l, hl | ⟨⟨j, x, hj, hx⟩, _⟩⟩ := h
  · exact ⟨l, hl.2⟩
  · exfalso
    have hfl : x.inFlight = true := by simp [Call.inFlight, hx]
    have hji := hu j i x k hj hi hfl hk
    subst hji
    rw [hi] at hj
    cases hj
    exact hpc hx

theorem Machine.Inv.mu_of_inFlight {s : Machine} (h : s.Inv) {i : Nat} {k : Call}
    (hi : s.calls[i]? = some k) (hk : k.inFlight = true) : s.det.mu = true := by
  by_contra hmu
  have hf : s.det.mu = false := by simpa using hmu
  rw [h.1 hf i k hi] at hk
  cases hk

theorem Machine.Inv.step {s : Machine} (h : s.Inv) (errors : Nat → String) (i : Nat)
    (now : Time) :
    (s.step errors i now).Inv := by
  unfold Machine.step
  cases hi : s.calls[i]? with
  | none => simpa [hi] using h
  | some k =>
    simp only [List.get?_eq_getElem?, hi]
    cases hpc : k.pc with
    | atLock =>
      by_cases hmu : s.det.mu = true
      · simpa [Call.step, hpc, hmu] using h
      · have hf : s.det.mu = false := by simpa using hmu
        simp only [Call.step, hpc, hf]
        have hnone := h.1 hf
        have ho : OnlyAt (s.calls.set i { k with pc := Pc.atSetDeadline }) i :=
          onlyAt_of_none s.calls i k _ hi hnone
        have hat := getElem?_set_at s.calls i k { k with pc := Pc.atSetDeadline } hi
        refine ⟨fun hc => by simp [ConflictDetector.Lock] at hc, ho.unique, ?_⟩
        obtain ⟨_, _, l, hl | ⟨⟨j, x, hj, hx⟩, _⟩⟩ := h
        · exact ⟨l, Or.inl ⟨ho.noneAtResolve hat (by simp), hl.2⟩⟩
        · exfalso
          have := hnone j x hj
          simp [Call.inFlight, hx] at this
    | atSetDeadline =>
      simp only [Call.step, hpc]
      have hk : k.inFlight = true := by simp [Call.inFlight, hpc]
      have ho : OnlyAt (s.calls.set i { k with pc := Pc.atResolve }) i :=
        onlyAt_of_inFlight s.calls i k _ hi hk h.2.1
      have hat := getElem?_set_at s.calls i k { k with pc := Pc.atResolve } hi
      obtain ⟨l, hl⟩ := h.whole_of_not_atResolve hi hk (by simp [hpc])
      refine ⟨fun hc => ?_, ho.unique, l,
        Or.inr ⟨⟨i, _, hat, rfl⟩, effectiveDeadline s.det now k.ctx, ?_⟩⟩
      · rw [setDeadline_mu, h.mu_of_inFlight hi hk] at hc
        cases hc
      · rw [setDeadline_calls, hl]
    | atResolve =>
      simp only [Call.step, hpc]
      have hk : k.inFlight = true := by simp [Call.inFlight, hpc]
      have ho : OnlyAt (s.calls.set i
          { k with pc := Pc.atReturn (s.det.resolveOrNil errors s.log k.ip).1 }) i :=
        onlyAt_of_inFlight s.calls i k _ hi hk h.2.1
      have hat := getElem?_set_at s.calls i k
        { k with pc := Pc.atReturn (s.det.resolveOrNil errors s.log k.ip).1 } hi
      have hmu := h.mu_of_inFlight hi hk
      obtain ⟨_, _, l, hl | ⟨_, d, hd⟩⟩ := h
      · exact absurd hpc (hl.1 i k hi)
      · refine ⟨fun hc => ?_, ho.unique, l ++ [(d, k.ip)],
          Or.inl ⟨ho.noneAtResolve hat (by simp), ?_⟩⟩
        · rw [resolveOrNil_mu, hmu] at hc
          cases hc
        · rw [resolveOrNil_calls, hd, wholeUses_snoc]
    | atReturn existing =>
      simp only [Call.step, hpc]
      have hk : k.inFlight = true := by simp [Call.inFlight, hpc]
      have ho : OnlyAt (s.calls.set i { k with pc := (Pc.returned (existing.notNil && !bytesEqual k.mac existing)) }) i :=
        onlyAt_of_inFlight s.calls i k _ hi hk h.2.1
      have hat := getElem?_set_at s.calls i k { k with pc := (Pc.returned (existing.notNil && !bytesEqual k.mac existing)) } hi
      obtain ⟨l, hl⟩ := h.whole_of_not_atResolve hi hk (by simp [hpc])
      exact ⟨fun _ => ho.noneInFlight hat (by simp [Call.inFlight]), ho.unique, l,
        Or.inl ⟨ho.noneAtResolve hat (by simp), hl⟩⟩
    | returned r =>
      simpa [Call.step, hpc] using h

theorem Machine.Inv.run {s : Machine} (h : s.Inv) (errors : Nat → String)
    (sched : List (Nat × Time)) :
    (s.run errors sched).Inv := by
  induction sched generalizing s with
  | nil => exact h
  | cons a rest ih => exact ih (h.step errors a.1 a.2)

theorem Machine.initial.inv {s : Machine} (h : s.initial) : s.Inv := by
  obtain ⟨hmu, hc, hall⟩ := h
  have hat : ∀ (j : Nat) (x : Call), s.calls[j]? = some x → x.pc = Pc.atLock :=
    fun j x hj => hall x (List.getElem?_mem hj)
  refine ⟨fun _ j x hj => by simp [Call.inFlight, hat j x hj], ?_, [], Or.inl ⟨?_, ?_⟩⟩
  · intro a b ka kb ha _ hka _
    simp [Call.inFlight, hat a ka ha] at hka
  · intro j x hj hx
    rw [hat j x hj] at hx
    cases hx
  · simpa [wholeUses] using hc

/-- A call that runs alone goes through its four statements and ends as
`WouldConflict` says: same result, same detector, same log. -/
theorem Machine.run_alone (c : ConflictDetector) (errors : Nat → String)
    (log : List LogEntry) (ctx : Context) (ip : IP)
    (mac : HardwareAddr) (hmu : c.mu = false) (t1 now t3 t4 : Time) :
    ((Machine.alone c log ctx ip mac).run errors [(0, t1), (0, now), (0, t3), (0, t4)]).calls =
        [Call.mk ctx ip mac (Pc.returned (c.WouldConflict errors now log ctx ip mac).1)] ∧
      ((Machine.alone c log ctx ip mac).run errors [(0, t1), (0, now), (0, t3), (0, t4)]).det.c.calls =
        (c.WouldConflict errors now log ctx ip mac).2.1.c.calls ∧
      ((Machine.alone c log ctx ip mac).run errors [(0, t1), (0, now), (0, t3), (0, t4)]).det.mu
        = false ∧
      ((Machine.alone c log ctx ip mac).run errors [(0, t1), (0, now), (0, t3), (0, t4)]).log =
        (c.WouldConflict errors now log ctx ip mac).2.2 := by
  simp [Machine.alone, Machine.run, Machine.step, Call.step, hmu,
    ConflictDetector.WouldConflict, ConflictDetector.Unlock]

/-- C6: from a state in which no call has started, and under every schedule,
two calls that hold the lock (between `Lock` returning and `Unlock`) are the
same call, a call in that stretch finds the mutex held, and what the resolver
has seen is a sequence of whole uses (`SetDeadline`, then `Resolve`), with at
most one more `SetDeadline` whose `Resolve` is still to come. -/
theorem WouldConflict_calls_never_overlap (s : Machine) (errors : Nat → String)
    (sched : List (Nat × Time))
    (h : s.initial) :
    (∀ (a b : Nat) (ka kb : Call), (s.run errors sched).calls[a]? = some ka →
        (s.run errors sched).calls[b]? = some kb → ka.inFlight = true → kb.inFlight = true → a = b) ∧
      (∀ (a : Nat) (ka : Call), (s.run errors sched).calls[a]? = some ka → ka.inFlight = true →
        (s.run errors sched).det.mu = true) ∧
      ∃ l, (s.run errors sched).det.c.calls = wholeUses l ∨
        ∃ d, (s.run errors sched).det.c.calls = wholeUses l ++ [ResolverOp.SetDeadline d] := by
  have hinv : (s.run errors sched).Inv := (Machine.initial.inv h).run errors sched
  refine ⟨hinv.2.1, fun a ka ha hka => hinv.mu_of_inFlight ha hka, ?_⟩
  obtain ⟨_, _, l, hl | ⟨_, d, hd⟩⟩ := hinv
  · exact ⟨l, Or.inl hl.2⟩
  · exact ⟨l, Or.inr ⟨d, hd⟩⟩

/-- C6 on `twoCalls` under `interleaved`. -/
theorem WouldConflict_calls_never_overlap_witness :
    twoCalls.initial ∧
      ∃ l, (twoCalls.run linuxErrors interleaved).det.c.calls = wholeUses l ∨
        ∃ d, (twoCalls.run linuxErrors interleaved).det.c.calls = wholeUses l ++ [ResolverOp.SetDeadline d] :=
  ⟨⟨rfl, rfl, by decide⟩,
    (WouldConflict_calls_never_overlap twoCalls linuxErrors interleaved ⟨rfl, rfl, by decide⟩).2.2⟩

/-- The run of `twoCalls` under `interleaved`: the second goroutine does not get
past `Lock` while the first one holds it, and the resolver sees the two calls
of the first one only. -/
theorem twoCalls_interleaved :
    (twoCalls.run linuxErrors interleaved).calls =
        [Call.mk background ip10005 macEE01 (Pc.atReturn macEE02),
          Call.mk background ip10005 macEE02 Pc.atLock] ∧
      (twoCalls.run linuxErrors interleaved).det.c.calls =
        [ResolverOp.SetDeadline Time.zero, ResolverOp.Resolve ip10005] ∧
      (twoCalls.run linuxErrors interleaved).det.mu = true := by
  refine ⟨by decide, by decide, by decide⟩

end Etcdhcp
